import Mathlib

/-!
Verification of `TemporaryVoiceChannelController`
(`src/tux/database/controllers/temporary_voice_channel.py`).

The controller is a thin data-access layer over a generic storage
abstraction (`BaseController`).  We embed the backing store as a list of
`TemporaryVoiceChannel` records in insertion order; every operation is a
function that takes the store and returns its result together with the
(possibly updated) store.  Timestamps are modelled as integers (seconds),
and the current UTC time (`datetime.now(UTC)` in the source) is passed to
`handle_owner_left_time` as an explicit `now` argument.
-/

/-- The `TemporaryVoiceChannel` entity: `guild_id` and `voice_channel_id`
form the composite primary key, `owner_id` is the controlling user, and
`owner_left_time` is a nullable UTC timestamp. -/
structure TemporaryVoiceChannel where
  guild_id : Int
  voice_channel_id : Int
  owner_id : Int
  owner_left_time : Option Int
deriving DecidableEq, Inhabited, Repr

/-- The backing store: the records currently persisted, in insertion order. -/
abbrev Store := List TemporaryVoiceChannel

namespace TemporaryVoiceChannelController

/-- The composite-primary-key filter
`(TemporaryVoiceChannel.guild_id == guild_id) & (TemporaryVoiceChannel.voice_channel_id == channel_id)`
used by the controller (field-equality predicate over the composite key). -/
def keyFilter (guild_id channel_id : Int) (r : TemporaryVoiceChannel) : Bool :=
  r.guild_id == guild_id && r.voice_channel_id == channel_id

/-- Modelled from the spec: `BaseController.find_one(filter)` — the generic
storage lookup, "parameterized by filter predicates expressed over field
equality" (`tux/database/controllers/base.py` is not in the source tree).
Returns a record matching the filter, or none; which record is returned when
several match is implementation-defined, modelled as the first in storage
order.  The store is not modified. -/
def find_one (p : TemporaryVoiceChannel → Bool) (s : Store) :
    Option TemporaryVoiceChannel × Store :=
  (s.find? p, s)

/-- Modelled from the spec: `BaseController.create` — inserts a new record
built from the given field values; `owner_left_time` is not passed by the
controller and defaults to null.  Returns the created record. -/
def create (guild_id voice_channel_id owner_id : Int) (s : Store) :
    TemporaryVoiceChannel × Store :=
  let r : TemporaryVoiceChannel :=
    { guild_id := guild_id
      voice_channel_id := voice_channel_id
      owner_id := owner_id
      owner_left_time := none }
  (r, s ++ [r])

/-- Modelled from the spec: `BaseController.delete_by_id(key)` — removes the
record whose composite primary key equals `key`; returns whether a record
was deleted. -/
def delete_by_id (key : Int × Int) (s : Store) : Bool × Store :=
  (s.any (keyFilter key.1 key.2), s.filter (fun r => !keyFilter key.1 key.2 r))

/-- Setting the `owner_left_time` field of a record, leaving every other
field unchanged — the `fields` payload the controller passes to
`update_by_id`. -/
def setLeft (t : Option Int) (r : TemporaryVoiceChannel) : TemporaryVoiceChannel :=
  { r with owner_left_time := t }

/-- The per-record effect of `update_by_id` on the store: the record whose
composite key matches gets its `owner_left_time` set; every other record is
untouched. -/
def updFn (g c : Int) (t : Option Int) (r : TemporaryVoiceChannel) :
    TemporaryVoiceChannel :=
  if keyFilter g c r then setLeft t r else r

/-- Modelled from the spec: `BaseController.update_by_id(key, fields)` — sets
the given field values on the record whose composite primary key equals
`key` and returns the updated record, or returns none and leaves the store
unchanged when no record has that key.  The only field the controller ever
updates is `owner_left_time`, so the model specializes `fields` to it. -/
def update_by_id (key : Int × Int) (owner_left_time : Option Int) (s : Store) :
    Option TemporaryVoiceChannel × Store :=
  if s.any (keyFilter key.1 key.2) then
    let s' := s.map (updFn key.1 key.2 owner_left_time)
    (s'.find? (keyFilter key.1 key.2), s')
  else
    (none, s)

/-- `get_temporary_voice_channel_by_id`: composite-key lookup via `find_one`
with the equality filter on `guild_id` and `voice_channel_id` (`keyFilter`). -/
def get_temporary_voice_channel_by_id (guild_id channel_id : Int) (s : Store) :
    Option TemporaryVoiceChannel × Store :=
  find_one (keyFilter guild_id channel_id) s

/-- `get_temporary_voice_channel_by_owner_id`: lookup via `find_one` with the
equality filter on `owner_id`. -/
def get_temporary_voice_channel_by_owner_id (user_id : Int) (s : Store) :
    Option TemporaryVoiceChannel × Store :=
  find_one (fun r => r.owner_id == user_id) s

/-- `get_or_create_temporary_voice_channel`: looks up by composite key and
returns the record if found, otherwise creates one with the given owner. -/
def get_or_create_temporary_voice_channel (guild_id voice_channel_id owner_id : Int)
    (s : Store) : TemporaryVoiceChannel × Store :=
  match get_temporary_voice_channel_by_id guild_id voice_channel_id s with
  | (some r, s') => (r, s')
  | (none, s') => create guild_id voice_channel_id owner_id s'

/-- `delete_temporary_voice_channel`: returns false if the composite-key
lookup finds nothing, otherwise deletes by primary key. -/
def delete_temporary_voice_channel (guild_id channel_id : Int) (s : Store) :
    Bool × Store :=
  match get_temporary_voice_channel_by_id guild_id channel_id s with
  | (none, s') => (false, s')
  | (some _, s') => delete_by_id (guild_id, channel_id) s'

/-- `timedelta(minutes=5)` in seconds: the fixed grace period added to the
current time when the owner leaves. -/
def gracePeriod : Int := 5 * 60

/-- `handle_owner_left_time`: if `owner_left` is true, updates the record's
`owner_left_time` to `datetime.now(UTC) + timedelta(minutes=5)` (here
`now + gracePeriod`); otherwise updates it to null.  `now` is the current
UTC time passed explicitly. -/
def handle_owner_left_time (now : Int) (guild_id channel_id : Int) (owner_left : Bool)
    (s : Store) : Option TemporaryVoiceChannel × Store :=
  if owner_left then
    update_by_id (guild_id, channel_id) (some (now + gracePeriod)) s
  else
    update_by_id (guild_id, channel_id) none s

/-- The store invariant: at most one record exists per
`(guild_id, voice_channel_id)` pair. -/
def uniqueKeys (s : Store) : Prop :=
  s.Pairwise (fun a b => a.guild_id ≠ b.guild_id ∨ a.voice_channel_id ≠ b.voice_channel_id)

instance (s : Store) : Decidable (uniqueKeys s) := by
  unfold uniqueKeys; infer_instance

/-! ### Helper lemmas about the embedded operations -/

lemma keyFilter_iff {g c : Int} {r : TemporaryVoiceChannel} :
    keyFilter g c r = true ↔ r.guild_id = g ∧ r.voice_channel_id = c := by
  simp [keyFilter]

lemma get_by_id_fst (g c : Int) (s : Store) :
    (get_temporary_voice_channel_by_id g c s).1 = s.find? (keyFilter g c) := rfl

lemma get_by_id_snd (g c : Int) (s : Store) :
    (get_temporary_voice_channel_by_id g c s).2 = s := rfl

/-- Under the uniqueness invariant, two members of the store with the same
composite key are the same record. -/
lemma eq_of_mem_of_same_key {s : Store} (hs : uniqueKeys s)
    {x r : TemporaryVoiceChannel} (hx : x ∈ s) (hr : r ∈ s)
    (h1 : x.guild_id = r.guild_id) (h2 : x.voice_channel_id = r.voice_channel_id) :
    x = r := by
  by_contra hne
  have hsym : Symmetric
      (fun a b : TemporaryVoiceChannel =>
        a.guild_id ≠ b.guild_id ∨ a.voice_channel_id ≠ b.voice_channel_id) := by
    intro a b hab
    rcases hab with h | h
    · exact Or.inl (Ne.symm h)
    · exact Or.inr (Ne.symm h)
  have := List.Pairwise.forall hsym hs hx hr hne
  rcases this with h | h
  · exact h h1
  · exact h h2

end TemporaryVoiceChannelController

namespace TemporaryVoiceChannelController

/-! ### Claim theorems -/

/-- C6: for every state with no record at `(guild_id, voice_channel_id)`,
`get_or_create_temporary_voice_channel` creates and returns a new record
whose `guild_id`, `voice_channel_id` and `owner_id` equal the arguments and
whose `owner_left_time` is null. -/
theorem getOrCreate_creates_when_absent (s : Store) (gid cid oid : Int)
    (h : (get_temporary_voice_channel_by_id gid cid s).1 = none) :
    get_or_create_temporary_voice_channel gid cid oid s =
      ({ guild_id := gid, voice_channel_id := cid, owner_id := oid,
         owner_left_time := none },
       s ++ [{ guild_id := gid, voice_channel_id := cid, owner_id := oid,
               owner_left_time := none }]) := by
  rw [get_by_id_fst] at h
  unfold get_or_create_temporary_voice_channel get_temporary_voice_channel_by_id
    find_one create
  rw [h]

theorem getOrCreate_creates_when_absent_witness :
    get_or_create_temporary_voice_channel 1 100 42 [] =
      ({ guild_id := 1, voice_channel_id := 100, owner_id := 42,
         owner_left_time := none },
       [{ guild_id := 1, voice_channel_id := 100, owner_id := 42,
          owner_left_time := none }]) :=
  getOrCreate_creates_when_absent [] 1 100 42 (by decide)

/-- C1: `get_or_create_temporary_voice_channel` is idempotent with respect to
existing records: when a record exists at the composite key it is returned
unchanged and the store is not modified, for every `owner_id` argument; two
calls with the same key and different owners return the same record both
times, with the first call's `owner_id` winning when the record is created. -/
theorem getOrCreate_idempotent (s : Store) (gid cid : Int) :
    (∀ oid r, (get_temporary_voice_channel_by_id gid cid s).1 = some r →
      get_or_create_temporary_voice_channel gid cid oid s = (r, s)) ∧
    (∀ o1 o2,
      get_or_create_temporary_voice_channel gid cid o2
          (get_or_create_temporary_voice_channel gid cid o1 s).2 =
        ((get_or_create_temporary_voice_channel gid cid o1 s).1,
         (get_or_create_temporary_voice_channel gid cid o1 s).2) ∧
      ((get_temporary_voice_channel_by_id gid cid s).1 = none →
        (get_or_create_temporary_voice_channel gid cid o1 s).1.owner_id = o1)) := by
  have hexist : ∀ oid r, (get_temporary_voice_channel_by_id gid cid s).1 = some r →
      get_or_create_temporary_voice_channel gid cid oid s = (r, s) := by
    intro oid r h
    rw [get_by_id_fst] at h
    unfold get_or_create_temporary_voice_channel get_temporary_voice_channel_by_id
      find_one
    rw [h]
  refine ⟨hexist, fun o1 o2 => ?_⟩
  cases h : (get_temporary_voice_channel_by_id gid cid s).1 with
  | some r =>
    have h1 := hexist o1 r h
    rw [h1]
    exact ⟨hexist o2 r h, fun habs => Option.noConfusion habs⟩
  | none =>
    have h1 := getOrCreate_creates_when_absent s gid cid o1 h
    rw [h1]
    set newr : TemporaryVoiceChannel :=
      { guild_id := gid, voice_channel_id := cid, owner_id := o1,
        owner_left_time := none } with hnewr
    have hfound : (get_temporary_voice_channel_by_id gid cid (s ++ [newr])).1 =
        some newr := by
      rw [get_by_id_fst, List.find?_append]
      rw [get_by_id_fst] at h
      rw [h]
      simp [keyFilter, hnewr]
    constructor
    · have := hexist
      unfold get_or_create_temporary_voice_channel
      rw [show get_temporary_voice_channel_by_id gid cid (s ++ [newr]) =
            (some newr, s ++ [newr]) from Prod.ext hfound rfl]
    · intro _
      rfl

theorem getOrCreate_idempotent_witness :
    get_or_create_temporary_voice_channel 1 100 7
        [{ guild_id := 1, voice_channel_id := 100, owner_id := 42,
           owner_left_time := none }] =
      ({ guild_id := 1, voice_channel_id := 100, owner_id := 42,
         owner_left_time := none },
       [{ guild_id := 1, voice_channel_id := 100, owner_id := 42,
          owner_left_time := none }]) :=
  (getOrCreate_idempotent
      [{ guild_id := 1, voice_channel_id := 100, owner_id := 42,
         owner_left_time := none }] 1 100).1 7 _ (by decide)

/-- C3: `delete_temporary_voice_channel` returns false and leaves the store
unchanged when no record exists at the composite key, and returns true when
a record exists there, after which `get_temporary_voice_channel_by_id` at
that key returns absent. -/
theorem delete_exact (s : Store) (gid cid : Int) :
    ((get_temporary_voice_channel_by_id gid cid s).1 = none →
      delete_temporary_voice_channel gid cid s = (false, s)) ∧
    (∀ r, (get_temporary_voice_channel_by_id gid cid s).1 = some r →
      (delete_temporary_voice_channel gid cid s).1 = true ∧
      (get_temporary_voice_channel_by_id gid cid
        (delete_temporary_voice_channel gid cid s).2).1 = none) := by
  constructor
  · intro h
    rw [get_by_id_fst] at h
    unfold delete_temporary_voice_channel get_temporary_voice_channel_by_id find_one
    rw [h]
  · intro r h
    rw [get_by_id_fst] at h
    have hdel : delete_temporary_voice_channel gid cid s =
        delete_by_id (gid, cid) s := by
      unfold delete_temporary_voice_channel get_temporary_voice_channel_by_id find_one
      rw [h]
    rw [hdel]
    constructor
    · have hmem := List.mem_of_find?_eq_some h
      have hpred := List.find?_some h
      unfold delete_by_id
      simp only
      rw [List.any_eq_true]
      exact ⟨r, hmem, hpred⟩
    · rw [get_by_id_fst]
      rw [List.find?_eq_none]
      intro x hx
      have := (List.mem_filter.mp hx).2
      simp only [Bool.not_eq_eq_eq_not, Bool.not_true] at this
      simp [this]

theorem delete_exact_witness :
    delete_temporary_voice_channel 2 200 [] = (false, []) ∧
    (delete_temporary_voice_channel 1 100
        [{ guild_id := 1, voice_channel_id := 100, owner_id := 42,
           owner_left_time := none }]).1 = true :=
  ⟨(delete_exact [] 2 200).1 (by decide),
   ((delete_exact
        [{ guild_id := 1, voice_channel_id := 100, owner_id := 42,
           owner_left_time := none }] 1 100).2
      { guild_id := 1, voice_channel_id := 100, owner_id := 42,
        owner_left_time := none } (by decide)).1⟩

/-- C8: `get_temporary_voice_channel_by_id` is an exact composite-key lookup:
absent when no record in the store has the pair as its key, and when a
record exists at the pair (under the uniqueness invariant) that record is
returned. -/
theorem get_by_id_exact (s : Store) (gid cid : Int) :
    ((∀ r ∈ s, ¬(r.guild_id = gid ∧ r.voice_channel_id = cid)) →
      (get_temporary_voice_channel_by_id gid cid s).1 = none) ∧
    (∀ r ∈ s, r.guild_id = gid → r.voice_channel_id = cid → uniqueKeys s →
      (get_temporary_voice_channel_by_id gid cid s).1 = some r) := by
  constructor
  · intro h
    rw [get_by_id_fst, List.find?_eq_none]
    intro x hx
    intro hpx
    exact h x hx (keyFilter_iff.mp hpx)
  · intro r hr h1 h2 hu
    rw [get_by_id_fst]
    have hsome : (s.find? (keyFilter gid cid)).isSome := by
      rw [List.find?_isSome]
      exact ⟨r, hr, keyFilter_iff.mpr ⟨h1, h2⟩⟩
    obtain ⟨x, hx⟩ := Option.isSome_iff_exists.mp hsome
    have hxmem := List.mem_of_find?_eq_some hx
    have hxpred := keyFilter_iff.mp (List.find?_some hx)
    rw [hx]
    congr 1
    exact eq_of_mem_of_same_key hu hxmem hr (hxpred.1.trans h1.symm)
      (hxpred.2.trans h2.symm)

theorem get_by_id_exact_witness :
    (get_temporary_voice_channel_by_id 1 101 [] ).1 = none ∧
    (get_temporary_voice_channel_by_id 1 100
        [{ guild_id := 1, voice_channel_id := 100, owner_id := 42,
           owner_left_time := none }]).1 =
      some { guild_id := 1, voice_channel_id := 100, owner_id := 42,
             owner_left_time := none } :=
  ⟨(get_by_id_exact [] 1 101).1 (by decide),
   (get_by_id_exact
        [{ guild_id := 1, voice_channel_id := 100, owner_id := 42,
           owner_left_time := none }] 1 100).2 _ (by decide) rfl rfl (by decide)⟩

/-- C9: `get_temporary_voice_channel_by_owner_id` returns absent when no
record has the given owner, and otherwise some record whose `owner_id`
equals the argument (implementation-defined which when several share it). -/
theorem get_by_owner_spec (s : Store) (uid : Int) :
    ((∀ r ∈ s, r.owner_id ≠ uid) →
      (get_temporary_voice_channel_by_owner_id uid s).1 = none) ∧
    ((∃ r ∈ s, r.owner_id = uid) →
      ∃ r, (get_temporary_voice_channel_by_owner_id uid s).1 = some r ∧
        r.owner_id = uid) := by
  constructor
  · intro h
    unfold get_temporary_voice_channel_by_owner_id find_one
    simp only
    rw [List.find?_eq_none]
    intro x hx hpx
    exact h x hx (by simpa using hpx)
  · intro ⟨r, hr, howner⟩
    have hsome : (s.find? (fun r => r.owner_id == uid)).isSome := by
      rw [List.find?_isSome]
      exact ⟨r, hr, by simpa using howner⟩
    obtain ⟨x, hx⟩ := Option.isSome_iff_exists.mp hsome
    refine ⟨x, hx, ?_⟩
    simpa using List.find?_some hx

theorem get_by_owner_spec_witness :
    (get_temporary_voice_channel_by_owner_id 9 []).1 = none ∧
    ∃ r, (get_temporary_voice_channel_by_owner_id 42
        [{ guild_id := 1, voice_channel_id := 100, owner_id := 42,
           owner_left_time := none }]).1 = some r ∧ r.owner_id = 42 :=
  ⟨(get_by_owner_spec [] 9).1 (by decide),
   (get_by_owner_spec
        [{ guild_id := 1, voice_channel_id := 100, owner_id := 42,
           owner_left_time := none }] 42).2
     ⟨{ guild_id := 1, voice_channel_id := 100, owner_id := 42,
        owner_left_time := none }, by decide, rfl⟩⟩

/-! ### Helper lemmas for the update path -/

lemma keyFilter_updFn (g c : Int) (t : Option Int) (r : TemporaryVoiceChannel) :
    keyFilter g c (updFn g c t r) = keyFilter g c r := by
  unfold updFn
  split <;> rfl

lemma updFn_guild_id (g c : Int) (t : Option Int) (r : TemporaryVoiceChannel) :
    (updFn g c t r).guild_id = r.guild_id := by
  unfold updFn
  split <;> rfl

lemma updFn_voice_channel_id (g c : Int) (t : Option Int) (r : TemporaryVoiceChannel) :
    (updFn g c t r).voice_channel_id = r.voice_channel_id := by
  unfold updFn
  split <;> rfl

lemma updFn_owner_id (g c : Int) (t : Option Int) (r : TemporaryVoiceChannel) :
    (updFn g c t r).owner_id = r.owner_id := by
  unfold updFn
  split <;> rfl

lemma find?_map_updFn (g c : Int) (t : Option Int) (s : Store) :
    (s.map (updFn g c t)).find? (keyFilter g c) =
      (s.find? (keyFilter g c)).map (setLeft t) := by
  rw [List.find?_map]
  have hcomp : keyFilter g c ∘ updFn g c t = keyFilter g c :=
    funext (keyFilter_updFn g c t)
  rw [hcomp]
  cases hf : s.find? (keyFilter g c) with
  | none => rfl
  | some x =>
    have hx := List.find?_some hf
    simp [updFn, hx]

lemma any_eq_true_of_find?_eq_some {p : TemporaryVoiceChannel → Bool} {s : Store}
    {r : TemporaryVoiceChannel} (h : s.find? p = some r) : s.any p = true :=
  List.any_eq_true.mpr ⟨r, List.mem_of_find?_eq_some h, List.find?_some h⟩

lemma update_by_id_of_found {g c : Int} {t : Option Int} {s : Store}
    {r : TemporaryVoiceChannel} (h : s.find? (keyFilter g c) = some r) :
    update_by_id (g, c) t s = (some (setLeft t r), s.map (updFn g c t)) := by
  unfold update_by_id
  rw [if_pos (any_eq_true_of_find?_eq_some h)]
  show ((s.map (updFn g c t)).find? (keyFilter g c), s.map (updFn g c t)) = _
  rw [find?_map_updFn, h]
  rfl

lemma update_by_id_of_missing {g c : Int} {t : Option Int} {s : Store}
    (h : s.find? (keyFilter g c) = none) :
    update_by_id (g, c) t s = (none, s) := by
  have ha : s.any (keyFilter g c) = false :=
    List.any_eq_false.mpr (List.find?_eq_none.mp h)
  unfold update_by_id
  rw [if_neg (by simp [ha])]

lemma update_by_id_snd_cases (g c : Int) (t : Option Int) (s : Store) :
    (update_by_id (g, c) t s).2 = s ∨
    (update_by_id (g, c) t s).2 = s.map (updFn g c t) := by
  unfold update_by_id
  split
  · right; rfl
  · left; rfl

lemma handle_as_update (now gid cid : Int) (b : Bool) (s : Store) :
    handle_owner_left_time now gid cid b s =
      update_by_id (gid, cid) (if b then some (now + gracePeriod) else none) s := by
  cases b <;> rfl

/-! ### Remaining claim theorems -/

/-- C5: for every state with no record at `(guild_id, channel_id)` and every
boolean `owner_left`, `handle_owner_left_time` returns absent and leaves the
store unchanged; in particular it creates no record. -/
theorem handle_owner_left_missing (s : Store) (gid cid now : Int) (b : Bool)
    (h : (get_temporary_voice_channel_by_id gid cid s).1 = none) :
    handle_owner_left_time now gid cid b s = (none, s) := by
  rw [get_by_id_fst] at h
  rw [handle_as_update]
  exact update_by_id_of_missing h

theorem handle_owner_left_missing_witness :
    handle_owner_left_time 0 1 100 true [] = (none, []) :=
  handle_owner_left_missing [] 1 100 0 true (by decide)

/-- C4: for every state containing a record at `(guild_id, channel_id)`,
`handle_owner_left_time` with `owner_left = true` sets that record's
`owner_left_time` to the current UTC time plus the fixed 5-minute grace
period and returns the updated record. -/
theorem handle_owner_left_true_sets_grace (s : Store) (gid cid now : Int)
    (r : TemporaryVoiceChannel)
    (h : (get_temporary_voice_channel_by_id gid cid s).1 = some r) :
    (handle_owner_left_time now gid cid true s).1 =
      some { r with owner_left_time := some (now + gracePeriod) } := by
  rw [get_by_id_fst] at h
  rw [handle_as_update]
  rw [update_by_id_of_found h]
  rfl

theorem handle_owner_left_true_sets_grace_witness :
    (handle_owner_left_time 1000 1 100 true
        [{ guild_id := 1, voice_channel_id := 100, owner_id := 42,
           owner_left_time := none }]).1 =
      some { guild_id := 1, voice_channel_id := 100, owner_id := 42,
             owner_left_time := some (1000 + gracePeriod) } :=
  handle_owner_left_true_sets_grace
    [{ guild_id := 1, voice_channel_id := 100, owner_id := 42,
       owner_left_time := none }] 1 100 1000
    { guild_id := 1, voice_channel_id := 100, owner_id := 42,
      owner_left_time := none } (by decide)

/-- C7: for every state containing a record at `(guild_id, channel_id)`,
`handle_owner_left_time` with `owner_left = false` sets that record's
`owner_left_time` to null and returns the updated record; in particular
calling it immediately after the `owner_left = true` call restores
`owner_left_time` to null. -/
theorem handle_owner_left_false_clears (s : Store) (gid cid now now2 : Int)
    (r : TemporaryVoiceChannel)
    (h : (get_temporary_voice_channel_by_id gid cid s).1 = some r) :
    (handle_owner_left_time now gid cid false s).1 =
      some { r with owner_left_time := none } ∧
    (handle_owner_left_time now gid cid false
        (handle_owner_left_time now2 gid cid true s).2).1 =
      some { r with owner_left_time := none } := by
  rw [get_by_id_fst] at h
  have hfalse : ∀ (s' : Store) (r' : TemporaryVoiceChannel),
      s'.find? (keyFilter gid cid) = some r' →
      (handle_owner_left_time now gid cid false s').1 = some (setLeft none r') := by
    intro s' r' h'
    rw [handle_as_update]
    rw [update_by_id_of_found h']
    rfl
  refine ⟨hfalse s r h, ?_⟩
  have hsnd : (handle_owner_left_time now2 gid cid true s).2 =
      s.map (updFn gid cid (some (now2 + gracePeriod))) := by
    rw [handle_as_update]
    rw [update_by_id_of_found h]
    rfl
  rw [hsnd]
  have hfind : (s.map (updFn gid cid (some (now2 + gracePeriod)))).find?
      (keyFilter gid cid) = some (setLeft (some (now2 + gracePeriod)) r) := by
    rw [find?_map_updFn, h]
    rfl
  exact hfalse _ (setLeft (some (now2 + gracePeriod)) r) hfind

theorem handle_owner_left_false_clears_witness :
    (handle_owner_left_time 2000 1 100 false
        [{ guild_id := 1, voice_channel_id := 100, owner_id := 42,
           owner_left_time := some 1300 }]).1 =
      some { guild_id := 1, voice_channel_id := 100, owner_id := 42,
             owner_left_time := none } :=
  (handle_owner_left_false_clears
      [{ guild_id := 1, voice_channel_id := 100, owner_id := 42,
         owner_left_time := some 1300 }] 1 100 2000 1000
      { guild_id := 1, voice_channel_id := 100, owner_id := 42,
        owner_left_time := some 1300 } (by decide)).1

/-- C10: `handle_owner_left_time` modifies at most the `owner_left_time`
field of the record at `(guild_id, channel_id)`: the store keeps its length,
every record keeps its `guild_id`, `voice_channel_id` and `owner_id`, and
every record at any other composite key is left entirely unchanged. -/
theorem handle_owner_left_frame (s : Store) (gid cid now : Int) (b : Bool)
    (i : Nat) (hi : i < s.length) :
    (handle_owner_left_time now gid cid b s).2.length = s.length ∧
    ((handle_owner_left_time now gid cid b s).2.getD i default).guild_id =
      (s.getD i default).guild_id ∧
    ((handle_owner_left_time now gid cid b s).2.getD i default).voice_channel_id =
      (s.getD i default).voice_channel_id ∧
    ((handle_owner_left_time now gid cid b s).2.getD i default).owner_id =
      (s.getD i default).owner_id ∧
    (¬((s.getD i default).guild_id = gid ∧
        (s.getD i default).voice_channel_id = cid) →
      (handle_owner_left_time now gid cid b s).2.getD i default =
        s.getD i default) := by
  rw [handle_as_update]
  rcases update_by_id_snd_cases gid cid
      (if b then some (now + gracePeriod) else none) s with hid | hmap
  · rw [hid]
    exact ⟨rfl, rfl, rfl, rfl, fun _ => rfl⟩
  · rw [hmap]
    set t : Option Int := if b then some (now + gracePeriod) else none
    have hget : (s.map (updFn gid cid t)).getD i default =
        updFn gid cid t (s.getD i default) := by
      rw [List.getD_eq_getElem?_getD, List.getD_eq_getElem?_getD,
        List.getElem?_map, List.getElem?_eq_getElem hi]
      rfl
    rw [hget]
    refine ⟨List.length_map s _, updFn_guild_id gid cid t _,
      updFn_voice_channel_id gid cid t _, updFn_owner_id gid cid t _, ?_⟩
    intro hne
    have hk : ¬(keyFilter gid cid (s.getD i default) = true) :=
      fun hk => hne (keyFilter_iff.mp hk)
    unfold updFn
    rw [if_neg hk]

theorem handle_owner_left_frame_witness :
    (handle_owner_left_time 1000 1 100 true
        [{ guild_id := 1, voice_channel_id := 100, owner_id := 42,
           owner_left_time := none },
         { guild_id := 2, voice_channel_id := 200, owner_id := 9,
           owner_left_time := none }]).2.getD 1 default =
      { guild_id := 2, voice_channel_id := 200, owner_id := 9,
        owner_left_time := none } :=
  (handle_owner_left_frame
      [{ guild_id := 1, voice_channel_id := 100, owner_id := 42,
         owner_left_time := none },
       { guild_id := 2, voice_channel_id := 200, owner_id := 9,
         owner_left_time := none }] 1 100 1000 true 1
      (by decide)).2.2.2.2 (by decide)

/-! ### Helper lemmas for the invariant -/

lemma get_or_create_snd_cases (gid cid oid : Int) (s : Store) :
    (get_or_create_temporary_voice_channel gid cid oid s).2 = s ∨
    (s.find? (keyFilter gid cid) = none ∧
      (get_or_create_temporary_voice_channel gid cid oid s).2 =
        s ++ [{ guild_id := gid, voice_channel_id := cid, owner_id := oid,
                owner_left_time := none }]) := by
  unfold get_or_create_temporary_voice_channel get_temporary_voice_channel_by_id
    find_one create
  cases hf : s.find? (keyFilter gid cid) with
  | some r => left; rfl
  | none => right; exact ⟨rfl, rfl⟩

lemma delete_snd_cases (gid cid : Int) (s : Store) :
    (delete_temporary_voice_channel gid cid s).2 = s ∨
    (delete_temporary_voice_channel gid cid s).2 =
      s.filter (fun r => !keyFilter gid cid r) := by
  unfold delete_temporary_voice_channel get_temporary_voice_channel_by_id find_one
    delete_by_id
  cases hf : s.find? (keyFilter gid cid) with
  | none => left; rfl
  | some r => right; rfl

lemma uniqueKeys_map_updFn {s : Store} (g c : Int) (t : Option Int)
    (h : uniqueKeys s) : uniqueKeys (s.map (updFn g c t)) := by
  unfold uniqueKeys at h ⊢
  rw [List.pairwise_map]
  refine h.imp ?_
  intro a b hab
  rw [updFn_guild_id, updFn_guild_id, updFn_voice_channel_id,
    updFn_voice_channel_id]
  exact hab

/-- C2: the invariant that at most one record exists per
`(guild_id, voice_channel_id)` pair is preserved by every operation of the
controller: starting from a state satisfying it, `get_or_create`,
`get_by_id`, `get_by_owner_id`, `delete` and `set_owner_left` each leave a
state that still satisfies it. -/
theorem uniqueKeys_preserved (s : Store) (gid cid oid uid now : Int) (b : Bool)
    (h : uniqueKeys s) :
    uniqueKeys (get_or_create_temporary_voice_channel gid cid oid s).2 ∧
    uniqueKeys (get_temporary_voice_channel_by_id gid cid s).2 ∧
    uniqueKeys (get_temporary_voice_channel_by_owner_id uid s).2 ∧
    uniqueKeys (delete_temporary_voice_channel gid cid s).2 ∧
    uniqueKeys (handle_owner_left_time now gid cid b s).2 := by
  refine ⟨?_, h, h, ?_, ?_⟩
  · rcases get_or_create_snd_cases gid cid oid s with hs | ⟨hf, hs⟩
    · rw [hs]; exact h
    · rw [hs]
      unfold uniqueKeys at h ⊢
      rw [List.pairwise_append]
      refine ⟨h, List.pairwise_singleton _ _, ?_⟩
      intro a ha b hb
      rw [List.mem_singleton] at hb
      subst hb
      have hak := List.find?_eq_none.mp hf a ha
      have : ¬(a.guild_id = gid ∧ a.voice_channel_id = cid) :=
        fun hk => hak (keyFilter_iff.mpr hk)
      exact not_and_or.mp this
  · rcases delete_snd_cases gid cid s with hs | hs
    · rw [hs]; exact h
    · rw [hs]
      exact List.Pairwise.sublist (List.filter_sublist s) h
  · rw [handle_as_update]
    rcases update_by_id_snd_cases gid cid
        (if b then some (now + gracePeriod) else none) s with hs | hs
    · rw [hs]; exact h
    · rw [hs]
      exact uniqueKeys_map_updFn gid cid _ h

theorem uniqueKeys_preserved_witness :
    uniqueKeys (get_or_create_temporary_voice_channel 1 100 7
        [{ guild_id := 1, voice_channel_id := 100, owner_id := 42,
           owner_left_time := none }]).2 ∧
    uniqueKeys (get_temporary_voice_channel_by_id 1 100
        [{ guild_id := 1, voice_channel_id := 100, owner_id := 42,
           owner_left_time := none }]).2 ∧
    uniqueKeys (get_temporary_voice_channel_by_owner_id 9
        [{ guild_id := 1, voice_channel_id := 100, owner_id := 42,
           owner_left_time := none }]).2 ∧
    uniqueKeys (delete_temporary_voice_channel 1 100
        [{ guild_id := 1, voice_channel_id := 100, owner_id := 42,
           owner_left_time := none }]).2 ∧
    uniqueKeys (handle_owner_left_time 0 1 100 true
        [{ guild_id := 1, voice_channel_id := 100, owner_id := 42,
           owner_left_time := none }]).2 :=
  uniqueKeys_preserved
    [{ guild_id := 1, voice_channel_id := 100, owner_id := 42,
       owner_left_time := none }] 1 100 7 9 0 true (by decide)

end TemporaryVoiceChannelController
